import Mathlib

/-!
# Verification of the QA RAG Bot ingestion-and-retrieval pipeline

A shallow embedding of the pipeline components described by the repository's
design documents (text extraction, sentence-aware chunking, the vector-store
abstraction and the answer-assembly stage), together with proofs of the
documented properties.

The repository ships its component contracts and API references; the Python
bodies (`text_extraction/text_extract.py`, `ask/ask.py`,
`embeddings/embeddings.py`, `api/main.py`) are not part of the sources at
hand, so every definition below is modelled from those documents, as noted
per definition.
-/

namespace QaRag

/-! ## Character-list string utilities

`occursIn needle hay` decides whether `needle` is a contiguous substring of
`hay`; it is the formal reading of "the text contains ...". -/

/-- Whether the first list is an initial segment of the second. -/
def leadsWith : List Char → List Char → Bool
  | [], _ => true
  | _ :: _, [] => false
  | a :: as, b :: bs => a == b && leadsWith as bs

/-- Whether the first list occurs contiguously inside the second. -/
def occursInL (n : List Char) : List Char → Bool
  | [] => leadsWith n []
  | b :: bs => leadsWith n (b :: bs) || occursInL n bs

/-- String-level substring test. -/
def occursIn (needle hay : String) : Bool :=
  occursInL needle.toList hay.toList

/-- Strip leading and trailing whitespace from a character list. -/
def trimChars (l : List Char) : List Char :=
  ((l.dropWhile Char.isWhitespace).reverse.dropWhile Char.isWhitespace).reverse

/-- Whitespace trimming (executable shallow counterpart of `strip`). -/
def strTrim (s : String) : String :=
  String.mk (trimChars s.toList)

/-! ## Extractor (text_extraction/text_extract.py)

Modelled from the spec: the Python extractor is absent from the sources;
the HTML document is embedded as a tree of element/text/comment nodes
carrying the `class`, `id` and `role` attributes the noise denylist
inspects. -/

/-- An HTML node: text, comment, or element with tag, class attribute,
id attribute, role attribute and children. -/
inductive Html where
  | text (s : String)
  | comment (s : String)
  | elem (tag cls idAttr role : String) (children : List Html)
deriving Repr

/-- Tags removed wholesale by the noise denylist (`NOISE_SELECTORS`:
`nav`, `footer`, `script`, `style`, `noscript`, `navbar`, `meta`, `link`). -/
def NOISE_TAGS : List String :=
  ["nav", "footer", "script", "style", "noscript", "navbar", "meta", "link"]

/-- Substring patterns matched against the `class` attribute
(`[class*="cookie"]`, `[class*="modal"]`, `[class*="popup"]`,
`[class*="advertisement"]`, `[class*="ad-"]`, `[class*="banner"]`,
plus the `.footer`/`.sidebar`/`.breadcrumb`/`.pagination` class selectors). -/
def NOISE_CLASS_PATTERNS : List String :=
  ["cookie", "modal", "popup", "advertisement", "ad-", "banner",
   "footer", "sidebar", "breadcrumb", "pagination"]

/-- Substring patterns matched against the `id` attribute
(`[id*="cookie"]`, `[id*="modal"]`, `[id*="popup"]`). -/
def NOISE_ID_PATTERNS : List String :=
  ["cookie", "modal", "popup"]

/-- Roles removed exactly (`[role="navigation"]`, `[role="contentinfo"]`). -/
def NOISE_ROLES : List String :=
  ["navigation", "contentinfo"]

/-- Modelled from the spec: denylist matching is substring-based on
class/id attributes and exact on semantic role/tag. -/
def isNoise (tag cls idAttr role : String) : Bool :=
  NOISE_TAGS.contains tag
    || NOISE_CLASS_PATTERNS.any (fun p => occursIn p cls)
    || NOISE_ID_PATTERNS.any (fun p => occursIn p idAttr)
    || NOISE_ROLES.contains role

mutual

/-- Modelled from the spec: the text items the extractor keeps — noise
subtrees and comment nodes are pruned, blank text nodes are dropped,
remaining text nodes are trimmed. -/
def textItems : Html → List String
  | .text s => if strTrim s = "" then [] else [strTrim s]
  | .comment _ => []
  | .elem tag cls idAttr role cs =>
      if isNoise tag cls idAttr role then [] else textItemsF cs

/-- Kept text items over a forest of sibling nodes, in document order. -/
def textItemsF : List Html → List String
  | [] => []
  | h :: t => textItems h ++ textItemsF t

end

/-- Join character lists with a separating character between items. -/
def joinSep (c : Char) : List (List Char) → List Char
  | [] => []
  | [x] => x
  | x :: y :: t => x ++ c :: joinSep c (y :: t)

/-- Render kept text items as the final cleaned text: one item per line,
matching the heading-boundary/blank-line-free output format. -/
def renderItems (items : List String) : String :=
  String.mk (joinSep '\n' (items.map String.toList))

/-- Modelled from the spec: `TextExtractor.extract` — prune noise, collect
visible text, join with line breaks. -/
def extract (doc : Html) : String :=
  renderItems (textItems doc)

mutual

/-- Declarative classification of every non-blank text node of the
document: the flag records whether some ancestor is a denylisted
noise element. -/
def taggedTexts (inNoise : Bool) : Html → List (Bool × String)
  | .text s => if strTrim s = "" then [] else [(inNoise, strTrim s)]
  | .comment _ => []
  | .elem tag cls idAttr role cs =>
      taggedTextsF (inNoise || isNoise tag cls idAttr role) cs

/-- Tagged text classification over a forest of sibling nodes. -/
def taggedTextsF (inNoise : Bool) : List Html → List (Bool × String)
  | [] => []
  | h :: t => taggedTexts inNoise h ++ taggedTextsF inNoise t

end

/-- The text nodes of the document that lie outside every denylisted
subtree. -/
def contentTexts (doc : Html) : List String :=
  ((taggedTexts false doc).filter (fun p => !p.1)).map Prod.snd

/-- The text nodes of the document that lie inside at least one
denylisted subtree. -/
def noiseTexts (doc : Html) : List String :=
  ((taggedTexts false doc).filter (fun p => p.1)).map Prod.snd

/-! ## Extractor batch processing (`process_pages`) -/

/-- Crawl outcome of one page. -/
inductive PageStatus where
  | ok
  | failed
deriving DecidableEq, Repr

/-- One crawled page record, as produced by the crawler. -/
structure CrawledPage where
  url : String
  title : Option String
  html : Option Html
  status : PageStatus
  error : Option String

/-- Extraction output for one page; `cleanedText` is the extractor's
cleaned visible text. -/
structure ExtractedDocument where
  url : String
  title : Option String
  cleanedText : String
deriving DecidableEq, Repr

/-- Modelled from the spec: `processPages` skips failed pages and pages
whose extracted text is empty after cleanup, emitting one
`ExtractedDocument` per remaining page. -/
def processPages : List CrawledPage → List ExtractedDocument
  | [] => []
  | p :: ps =>
      match p.status, p.html with
      | .failed, _ => processPages ps
      | .ok, none => processPages ps
      | .ok, some h =>
          let t := extract h
          if t = "" then processPages ps
          else ⟨p.url, p.title, t⟩ :: processPages ps

/-! ## Chunker (sentence-aware chunking with overlap)

Modelled from the spec: the chunker code is absent from the sources.  It
splits `cleanedText` into sentences and greedily accumulates consecutive
sentences into a chunk while the running character count stays within the
`maxChars` budget; each new chunk after the first is seeded with the last
`overlapSentences` sentences of the previous chunk (kept only when the
budget allows seeding), and a single sentence longer than the budget is
emitted alone.  The embedding works at the sentence-sequence level: a
chunk records its overlap seed and its body of new sentences, and the
emitted chunk text is the concatenation of both. -/

/-- Total character count of a sentence list. -/
def chunkSize (sents : List String) : Nat :=
  (sents.map String.length).sum

/-- One produced chunk: the overlap sentences copied from the previous
chunk, and the new sentences this chunk contributes. -/
structure SentChunk where
  seed : List String
  body : List String
deriving DecidableEq, Repr

/-- The sentence sequence a chunk's text is assembled from. -/
def SentChunk.sentences (c : SentChunk) : List String :=
  c.seed ++ c.body

/-- Modelled from the spec: greedy accumulation loop.  `seed`/`body` is
the chunk under construction; the list argument is the remaining
sentences. -/
def chunkGo (budget k : Nat) (seed body : List String) :
    List String → List SentChunk
  | [] => [⟨seed, body⟩]
  | s :: rest =>
      if chunkSize seed + chunkSize body + s.length ≤ budget then
        chunkGo budget k seed (body ++ [s]) rest
      else
        let ov := ((seed ++ body).reverse.take k).reverse
        let seed' := if chunkSize ov + s.length ≤ budget then ov else []
        ⟨seed, body⟩ :: chunkGo budget k seed' [s] rest

/-- Modelled from the spec: `chunk` over the sentence sequence of a
document's cleaned text. -/
def chunkSentences (budget k : Nat) : List String → List SentChunk
  | [] => []
  | s :: rest => chunkGo budget k [] [s] rest

/-- The documented size discipline for one produced chunk: its total
character count stays within the budget, except for a chunk that is a
single over-long sentence emitted alone. -/
def ChunkOk (budget : Nat) (c : SentChunk) : Prop :=
  chunkSize c.sentences ≤ budget
    ∨ (c.seed = [] ∧ ∃ s, c.body = [s] ∧ budget < s.length)

/-! ## VectorStore (embeddings/embeddings.py)

Modelled from the spec: the Chroma-backed store is absent from the
sources.  A collection is a sequence of embedding records; `addChunks`
upserts by chunk id; `queryCollection` ranks every stored record by the
provider-defined distance between the query embedding and the stored
vector, ascending, and returns at most `n` results.  Embedding vectors
and the distance metric are opaque provider functions, passed as
parameters. -/

/-- The unit stored and retrieved for grounding. -/
structure Chunk where
  id : String
  text : String
  sourceUrl : String
  sourceTitle : Option String
deriving DecidableEq, Repr

/-- Modelled from the spec: the chunk id is derived deterministically
from the chunk's content (a content-hash stand-in, injective in the
text), matching the documented `chunk_<hash>` storage ids. -/
def chunkId (text : String) : String :=
  "chunk_" ++ text

/-- Build the chunk stored for a piece of text with its source metadata. -/
def mkChunk (text url : String) (title : Option String) : Chunk :=
  ⟨chunkId text, text, url, title⟩

/-- A stored record: chunk plus its embedding vector (opaque to the
store). -/
structure EmbeddingRecord where
  chunk : Chunk
  vector : List Int
deriving DecidableEq, Repr

/-- A named collection's contents, in insertion order. -/
abbrev Collection := List EmbeddingRecord

/-- Whether the collection already holds a record with the given id. -/
def hasId (col : Collection) (i : String) : Bool :=
  col.any (fun e => e.chunk.id == i)

/-- Upsert one record: replace the record with the same chunk id when
present, append otherwise. -/
def upsert (col : Collection) (r : EmbeddingRecord) : Collection :=
  if hasId col r.chunk.id then
    col.map (fun e => if e.chunk.id == r.chunk.id then r else e)
  else
    col ++ [r]

/-- Modelled from the spec: `addChunks` embeds each chunk's text and
upserts the records into the collection, left to right. -/
def addChunks (embed : String → List Int) (col : Collection)
    (cs : List Chunk) : Collection :=
  cs.foldl (fun acc c => upsert acc ⟨c, embed c.text⟩) col

/-- One retrieval hit: the chunk together with its distance to the query
(lower = more similar). -/
structure Retrieved where
  chunk : Chunk
  distance : Nat
deriving DecidableEq, Repr

/-- Stable insertion into a distance-sorted list: the new element goes
after every element whose distance does not exceed its own. -/
def insertRetr (x : Retrieved) : List Retrieved → List Retrieved
  | [] => [x]
  | y :: ys =>
      if y.distance ≤ x.distance then y :: insertRetr x ys
      else x :: y :: ys

/-- Stable insertion sort ascending by distance. -/
def sortRetr : List Retrieved → List Retrieved
  | [] => []
  | x :: xs => insertRetr x (sortRetr xs)

/-- Modelled from the spec: `query` embeds the query text, scores every
stored record, sorts ascending by distance and keeps at most `n`
results. -/
def queryCollection (embed : String → List Int)
    (dist : List Int → List Int → Nat) (col : Collection)
    (q : String) (n : Nat) : List Retrieved :=
  (sortRetr (col.map (fun r => ⟨r.chunk, dist (embed q) r.vector⟩))).take n

/-- The vector store: named collections, created lazily by ingestion. -/
abbrev Store := List (String × Collection)

/-- Look up a collection by name. -/
def findCollection (st : Store) (name : String) : Option Collection :=
  (st.find? (fun p => p.fst == name)).map Prod.snd

/-- Modelled from the repository's API reference: `query_embeddings`
against a collection name that does not exist is a query error
(documented as HTTP 500 `Query error: ...`), while a query against an
existing collection returns the ranked results. -/
def queryEmbeddings (embed : String → List Int)
    (dist : List Int → List Int → Nat) (st : Store)
    (name q : String) (n : Nat) : Except String (List Retrieved) :=
  match findCollection st name with
  | none => .error ("Query error: Collection " ++ name ++ " does not exist.")
  | some col => .ok (queryCollection embed dist col q n)

/-! ## AnswerAssembler (ask/ask.py and the /ask endpoint)

Modelled from the spec and the repository's ASK API documents: the
Python bodies are absent from the sources.  The assembler validates the
caller's input, queries the store, and either refuses with the fixed
no-context message, fails on a query error, or builds a grounding prompt
and invokes the language-model provider exactly once.  The outcome
records how many retrieval calls and language-model calls were made, so
"no retrieval occurs" and "the provider is never invoked" are statable. -/

/-- Answer status per the data model: answered, no evidence, or failed. -/
inductive AnswerStatus where
  | answered
  | noEvidence
  | failed
deriving DecidableEq, Repr

/-- One source citation: url, title and retrieval distance. -/
structure Citation where
  url : String
  title : Option String
  distance : Nat
deriving DecidableEq, Repr

/-- The assembled answer. -/
structure Answer where
  status : AnswerStatus
  text : Option String
  citations : List Citation
  error : Option String
deriving DecidableEq, Repr

/-- Errors surfaced to the caller instead of an `Answer`: the two
documented caller input errors (HTTP 400) and the query error
(HTTP 500). -/
inductive AskError where
  | emptyQuery
  | badNResults
  | queryError (msg : String)
deriving DecidableEq, Repr

/-- Whether an error is a caller input error (rejected before the
pipeline starts). -/
def AskError.isInputError : AskError → Bool
  | .emptyQuery => true
  | .badNResults => true
  | .queryError _ => false

/-- The fixed, non-fabricated message returned when retrieval finds no
context (exact string from the ASK API documents). -/
def NO_CONTEXT_MESSAGE : String :=
  "No relevant context found. Unable to answer the question."

/-- Grounding prompt: enumerates the retrieved chunk texts, each tagged
with its source, followed by the question. -/
def buildPrompt (q : String) (ctx : List Retrieved) : String :=
  "Answer strictly from the context below.\n"
    ++ String.intercalate "\n"
        (ctx.map (fun r => "[" ++ r.chunk.sourceUrl ++ "] " ++ r.chunk.text))
    ++ "\nQuestion: " ++ q

/-- Result of one `answer` call plus provider-call accounting. -/
structure AskOutcome where
  result : Except AskError Answer
  retrievalCalls : Nat
  llmCalls : Nat

/-- Modelled from the spec: the `answer` operation.  Blank queries and
`n_results` outside `[1,20]` are rejected before any retrieval; an empty
result set yields `noEvidence` with the fixed message and no citations
without invoking the language model; otherwise the model is invoked once
and the citations preserve the retrieval order. -/
def answerOp (embed : String → List Int)
    (dist : List Int → List Int → Nat) (llm : String → String)
    (st : Store) (q : String) (n : Nat) (name : String) : AskOutcome :=
  if strTrim q = "" then ⟨.error .emptyQuery, 0, 0⟩
  else if n < 1 ∨ 20 < n then ⟨.error .badNResults, 0, 0⟩
  else
    match queryEmbeddings embed dist st name q n with
    | .error e => ⟨.error (.queryError e), 1, 0⟩
    | .ok [] =>
        ⟨.ok ⟨.noEvidence, some NO_CONTEXT_MESSAGE, [], none⟩, 1, 0⟩
    | .ok (r :: rs) =>
        ⟨.ok ⟨.answered, some (llm (buildPrompt q (r :: rs))),
            (r :: rs).map
              (fun x => ⟨x.chunk.sourceUrl, x.chunk.sourceTitle, x.distance⟩),
            none⟩, 1, 1⟩

/-! ## The /ask API response (api/main.py)

Modelled from the ASK API documents: the HTTP-level response shape. -/

/-- One context chunk echoed back to the caller. -/
structure ContextUsed where
  text : String
  url : String
  title : Option String
  distance : Nat
deriving DecidableEq, Repr

/-- The `/ask` response body. -/
structure AskResponse where
  status : String
  query : String
  answer : String
  context_used : List ContextUsed
  total_context_chunks : Nat
  collection_name : String
  error : Option String
deriving DecidableEq, Repr

/-- Modelled from the ASK API documents: `ask_question` — validation,
retrieval, then either the `no_context` response with the fixed answer
text or the `success` response carrying the generated answer and the
context used. -/
def askQuestion (embed : String → List Int)
    (dist : List Int → List Int → Nat) (llm : String → String)
    (st : Store) (q : String) (n : Nat) (name : String) :
    Except AskError AskResponse :=
  if strTrim q = "" then .error .emptyQuery
  else if n < 1 ∨ 20 < n then .error .badNResults
  else
    match queryEmbeddings embed dist st name q n with
    | .error e => .error (.queryError e)
    | .ok [] =>
        .ok ⟨"no_context", q, NO_CONTEXT_MESSAGE, [], 0, name, none⟩
    | .ok (r :: rs) =>
        .ok ⟨"success", q, llm (buildPrompt q (r :: rs)),
            (r :: rs).map
              (fun x => ⟨x.chunk.text, x.chunk.sourceUrl,
                         x.chunk.sourceTitle, x.distance⟩),
            (r :: rs).length, name, none⟩

/-! ## Request models and their defaults (api/main.py)

Modelled from the Ingest and ASK API documents: optional request fields
and the fixed defaults substituted when the caller omits them. -/

/-- The `/ingest` request body; optional fields are `none` when omitted. -/
structure IngestRequest where
  base_url : String
  max_depth : Option Nat
  max_pages : Option Nat
  max_chars : Option Nat
  overlap_sentences : Option Nat
  collection_name : Option String
deriving DecidableEq, Repr

/-- Fully resolved ingest parameters. -/
structure IngestParams where
  base_url : String
  max_depth : Nat
  max_pages : Nat
  max_chars : Nat
  overlap_sentences : Nat
  collection_name : String
deriving DecidableEq, Repr

/-- Modelled from the Ingest API document: defaults `max_depth=2`,
`max_pages=50`, `max_chars=1800`, `overlap_sentences=2`,
`collection_name="rag_bot"`. -/
def resolveIngest (r : IngestRequest) : IngestParams :=
  ⟨r.base_url, r.max_depth.getD 2, r.max_pages.getD 50,
   r.max_chars.getD 1800, r.overlap_sentences.getD 2,
   r.collection_name.getD "rag_bot"⟩

/-- The `/ask` request body; optional fields are `none` when omitted. -/
structure AskRequest where
  query : String
  n_results : Option Nat
  collection_name : Option String
deriving DecidableEq, Repr

/-- Fully resolved ask parameters. -/
structure AskParams where
  query : String
  n_results : Nat
  collection_name : String
deriving DecidableEq, Repr

/-- Modelled from the ASK API documents: defaults `n_results=5`,
`collection_name="rag_bot"`. -/
def resolveAsk (r : AskRequest) : AskParams :=
  ⟨r.query, r.n_results.getD 5, r.collection_name.getD "rag_bot"⟩

/-- The `/ask` endpoint: resolve the request's defaults, then run the
ask operation. -/
def askViaRequest (embed : String → List Int)
    (dist : List Int → List Int → Nat) (llm : String → String)
    (st : Store) (r : AskRequest) : Except AskError AskResponse :=
  let p := resolveAsk r
  askQuestion embed dist llm st p.query p.n_results p.collection_name

/-! ## Deterministic provider stubs

Concrete embedding/distance/language-model functions used by the closed
witness statements (the real providers are opaque external services; the
theorems above are parametric in them). -/

/-- Stub embedding provider: deterministic for identical text. -/
def embedStub (s : String) : List Int :=
  [Int.ofNat s.length]

/-- Stub distance metric: sum of componentwise absolute differences. -/
def distStub (a b : List Int) : Nat :=
  ((a.zip b).map (fun p => (p.1 - p.2).natAbs)).sum

/-- Stub language-model provider. -/
def llmStub (_ : String) : String :=
  "stub answer"

/-- Concrete stored record: the install chunk used by closed witness
statements. -/
def recInstall : EmbeddingRecord :=
  ⟨mkChunk "To install, download the installer." "https://ex.com/a"
      (some "Install"),
   embedStub "To install, download the installer."⟩

/-- Concrete stored record: a second, more distant chunk used by closed
witness statements. -/
def recSystem : EmbeddingRecord :=
  ⟨mkChunk "System requirements: a modern computer with enough memory."
      "https://ex.com/b" none,
   embedStub "System requirements: a modern computer with enough memory."⟩

/-- Concrete crawled page with visible content, for closed witness
statements. -/
def pageContent : CrawledPage :=
  ⟨"https://ex.com/a", some "A",
   some (Html.elem "body" "" "" ""
     [Html.elem "h1" "" "" "" [Html.text "Title"],
      Html.elem "p" "" "" "" [Html.text "Content here"]]),
   .ok, none⟩

/-- Concrete failed crawled page, for closed witness statements. -/
def pageFailed : CrawledPage :=
  ⟨"https://ex.com/b", none, none, .failed, some "HTTP 404"⟩

/-- Concrete crawled page whose extracted text is empty after cleanup
(only a denylisted element), for closed witness statements. -/
def pageNoText : CrawledPage :=
  ⟨"https://ex.com/c", none,
   some (Html.elem "body" "" "" ""
     [Html.elem "nav" "" "" "" [Html.text "Home"]]),
   .ok, none⟩

/-- Concrete HTML document with a denylisted navigation element next to
real content, for closed witness statements. -/
def docSample : Html :=
  Html.elem "body" "" "" ""
    [Html.elem "nav" "" "" "" [Html.text "Home"],
     Html.elem "p" "" "" "" [Html.text "Content here"]]

/-! ## Theorems -/

/-- C10: every optional parameter left unspecified takes its fixed
default (`max_depth=2`, `max_pages=50`, `max_chars=1800`,
`overlap_sentences=2`, `collection_name="rag_bot"` for ingest;
`n_results=5`, `collection_name="rag_bot"` for the answer operation),
and a call omitting a parameter behaves identically to a call passing
that default explicitly. -/
theorem c10_optional_defaults (u q : String) (embed : String → List Int)
    (dist : List Int → List Int → Nat) (llm : String → String) (st : Store) :
    resolveIngest ⟨u, none, none, none, none, none⟩
        = ⟨u, 2, 50, 1800, 2, "rag_bot"⟩
    ∧ resolveIngest ⟨u, none, none, none, none, none⟩
        = resolveIngest ⟨u, some 2, some 50, some 1800, some 2, some "rag_bot"⟩
    ∧ resolveAsk ⟨q, none, none⟩ = ⟨q, 5, "rag_bot"⟩
    ∧ resolveAsk ⟨q, none, none⟩ = resolveAsk ⟨q, some 5, some "rag_bot"⟩
    ∧ askViaRequest embed dist llm st ⟨q, none, none⟩
        = askViaRequest embed dist llm st ⟨q, some 5, some "rag_bot"⟩ :=
  ⟨rfl, rfl, rfl, rfl, rfl⟩

/-- C9: on the no-context branch (valid input, empty retrieval), the
answer text is exactly the constant `NO_CONTEXT_MESSAGE`, independent of
the query text and collection name, with `context_used = []`,
`total_context_chunks = 0` and `error = null`. -/
theorem c9_no_context_branch (embed : String → List Int)
    (dist : List Int → List Int → Nat) (llm : String → String)
    (st : Store) (q : String) (n : Nat) (name : String)
    (hq : ¬ strTrim q = "") (h1 : 1 ≤ n) (h2 : n ≤ 20)
    (hret : queryEmbeddings embed dist st name q n = .ok []) :
    askQuestion embed dist llm st q n name
      = .ok ⟨"no_context", q,
          "No relevant context found. Unable to answer the question.",
          [], 0, name, none⟩ := by
  unfold askQuestion
  rw [if_neg hq, if_neg (by omega : ¬ (n < 1 ∨ 20 < n)), hret]
  rfl

/-- Witness for C9 at a concrete empty collection. -/
theorem c9_no_context_branch_witness :
    (¬ (strTrim "anything" = "") ∧ (1:Nat) ≤ 5 ∧ (5:Nat) ≤ 20
      ∧ queryEmbeddings embedStub distStub [("rag_bot", [])] "rag_bot"
          "anything" 5 = .ok [])
    ∧ askQuestion embedStub distStub llmStub [("rag_bot", [])]
        "anything" 5 "rag_bot"
      = .ok ⟨"no_context", "anything",
          "No relevant context found. Unable to answer the question.",
          [], 0, "rag_bot", none⟩ :=
  ⟨⟨by decide, by omega, by omega, rfl⟩,
   c9_no_context_branch embedStub distStub llmStub [("rag_bot", [])]
     "anything" 5 "rag_bot" (by decide) (by omega) (by omega) rfl⟩

/-- C1: whenever retrieval returns an empty result set on a valid call,
the answer operation returns `noEvidence` with the fixed message and an
empty citations list, makes exactly one retrieval call, and never
invokes the language-model provider (`llmCalls = 0`); an empty
collection always yields an empty retrieval, so `answer()` on an empty
collection returns `noEvidence` with no citations for every query. -/
theorem c1_no_evidence_without_grounding (embed : String → List Int)
    (dist : List Int → List Int → Nat) (llm : String → String)
    (st : Store) (q : String) (n : Nat) (name : String)
    (hq : ¬ strTrim q = "") (h1 : 1 ≤ n) (h2 : n ≤ 20)
    (hret : queryEmbeddings embed dist st name q n = .ok []) :
    answerOp embed dist llm st q n name
      = ⟨.ok ⟨.noEvidence, some NO_CONTEXT_MESSAGE, [], none⟩, 1, 0⟩ := by
  unfold answerOp
  rw [if_neg hq, if_neg (by omega : ¬ (n < 1 ∨ 20 < n)), hret]

/-- Witness for C1 at a concrete empty collection. -/
theorem c1_no_evidence_without_grounding_witness :
    (¬ (strTrim "how do I install" = "") ∧ (1:Nat) ≤ 5 ∧ (5:Nat) ≤ 20
      ∧ queryEmbeddings embedStub distStub [("rag_bot", [])] "rag_bot"
          "how do I install" 5 = .ok [])
    ∧ answerOp embedStub distStub llmStub [("rag_bot", [])]
        "how do I install" 5 "rag_bot"
      = ⟨.ok ⟨.noEvidence, some NO_CONTEXT_MESSAGE, [], none⟩, 1, 0⟩ :=
  ⟨⟨by decide, by omega, by omega, rfl⟩,
   c1_no_evidence_without_grounding embedStub distStub llmStub
     [("rag_bot", [])] "how do I install" 5 "rag_bot"
     (by decide) (by omega) (by omega) rfl⟩

/-- C3: a blank query, or `n_results` outside `[1,20]`, is rejected as a
caller input error before any retrieval: the result is an input error
and both the retrieval-call and language-model-call counts are zero. -/
theorem c3_input_errors_before_retrieval (embed : String → List Int)
    (dist : List Int → List Int → Nat) (llm : String → String)
    (st : Store) (q : String) (n : Nat) (name : String)
    (h : strTrim q = "" ∨ n < 1 ∨ 20 < n) :
    ∃ e : AskError,
      (answerOp embed dist llm st q n name).result = .error e
      ∧ e.isInputError = true
      ∧ (answerOp embed dist llm st q n name).retrievalCalls = 0
      ∧ (answerOp embed dist llm st q n name).llmCalls = 0 := by
  by_cases hq : strTrim q = ""
  · have ho : answerOp embed dist llm st q n name
        = ⟨.error .emptyQuery, 0, 0⟩ := by
      unfold answerOp
      rw [if_pos hq]
    exact ⟨.emptyQuery, by rw [ho], rfl, by rw [ho], by rw [ho]⟩
  · have hn : n < 1 ∨ 20 < n := by tauto
    have ho : answerOp embed dist llm st q n name
        = ⟨.error .badNResults, 0, 0⟩ := by
      unfold answerOp
      rw [if_neg hq, if_pos hn]
    exact ⟨.badNResults, by rw [ho], rfl, by rw [ho], by rw [ho]⟩

/-- Witness for C3 at `n_results = 21`. -/
theorem c3_input_errors_before_retrieval_witness :
    (strTrim "valid question" = "" ∨ (21:Nat) < 1 ∨ 20 < (21:Nat))
    ∧ ∃ e : AskError,
        (answerOp embedStub distStub llmStub [("rag_bot", [])]
          "valid question" 21 "rag_bot").result = .error e
        ∧ e.isInputError = true
        ∧ (answerOp embedStub distStub llmStub [("rag_bot", [])]
            "valid question" 21 "rag_bot").retrievalCalls = 0
        ∧ (answerOp embedStub distStub llmStub [("rag_bot", [])]
            "valid question" 21 "rag_bot").llmCalls = 0 :=
  ⟨by omega,
   c3_input_errors_before_retrieval embedStub distStub llmStub
     [("rag_bot", [])] "valid question" 21 "rag_bot" (by omega)⟩

/-- C2 counterexample: querying a collection name that names no existing
collection does not return an empty `RetrievalResult` — it returns a
query error (documented as HTTP 500), and the surrounding answer
operation surfaces that error instead of a no-evidence success. -/
theorem c2_missing_collection_counterexample :
    queryEmbeddings embedStub distStub [] "rag_bot" "install" 5
      = .error "Query error: Collection rag_bot does not exist."
    ∧ queryEmbeddings embedStub distStub [] "rag_bot" "install" 5
      ≠ .ok []
    ∧ (answerOp embedStub distStub llmStub [] "install" 5 "rag_bot").result
      = .error (.queryError
          "Query error: Collection rag_bot does not exist.") := by
  have h1 : queryEmbeddings embedStub distStub [] "rag_bot" "install" 5
      = Except.error "Query error: Collection rag_bot does not exist." := rfl
  exact ⟨h1, by rw [h1]; exact fun h => Except.noConfusion h, rfl⟩

/-- C2 (amended): for every query text and every collection name that
names no existing collection, the VectorStore query operation returns a
query error rather than an empty result, and the surrounding answer
operation fails with that query error (never reaching the language
model) instead of returning the no-evidence outcome. -/
theorem c2_missing_collection_is_error (embed : String → List Int)
    (dist : List Int → List Int → Nat) (llm : String → String)
    (st : Store) (q : String) (n : Nat) (name : String)
    (hq : ¬ strTrim q = "") (h1 : 1 ≤ n) (h2 : n ≤ 20)
    (hcol : findCollection st name = none) :
    queryEmbeddings embed dist st name q n
      = .error ("Query error: Collection " ++ name ++ " does not exist.")
    ∧ answerOp embed dist llm st q n name
      = ⟨.error (.queryError
          ("Query error: Collection " ++ name ++ " does not exist.")),
          1, 0⟩ := by
  have hqe : queryEmbeddings embed dist st name q n
      = .error ("Query error: Collection " ++ name ++ " does not exist.") := by
    unfold queryEmbeddings
    rw [hcol]
  refine ⟨hqe, ?_⟩
  unfold answerOp
  rw [if_neg hq, if_neg (by omega : ¬ (n < 1 ∨ 20 < n)), hqe]

/-- Witness for the amended C2 on an empty store. -/
theorem c2_missing_collection_is_error_witness :
    (¬ (strTrim "install" = "") ∧ (1:Nat) ≤ 5 ∧ (5:Nat) ≤ 20
      ∧ findCollection [] "rag_bot" = none)
    ∧ queryEmbeddings embedStub distStub [] "rag_bot" "install" 5
        = .error ("Query error: Collection " ++ "rag_bot" ++ " does not exist.")
    ∧ answerOp embedStub distStub llmStub [] "install" 5 "rag_bot"
        = ⟨.error (.queryError
            ("Query error: Collection " ++ "rag_bot" ++ " does not exist.")),
            1, 0⟩ :=
  ⟨⟨by decide, by omega, by omega, rfl⟩,
   c2_missing_collection_is_error embedStub distStub llmStub []
     "install" 5 "rag_bot" (by decide) (by omega) (by omega) rfl⟩

theorem addChunks_nil (embed : String → List Int) (col : Collection) :
    addChunks embed col [] = col := rfl

theorem addChunks_cons (embed : String → List Int) (col : Collection)
    (c : Chunk) (cs : List Chunk) :
    addChunks embed col (c :: cs)
      = addChunks embed (upsert col ⟨c, embed c.text⟩) cs := rfl

theorem hasId_upsert_of {col : Collection} {r : EmbeddingRecord} {x : String}
    (h : hasId col x = true) : hasId (upsert col r) x = true := by
  rcases List.any_eq_true.mp h with ⟨e, he, hx⟩
  unfold upsert
  split
  · apply List.any_eq_true.mpr
    by_cases hid : (e.chunk.id == r.chunk.id) = true
    · refine ⟨r, List.mem_map.mpr ⟨e, he, by rw [if_pos hid]⟩, ?_⟩
      have h1 : e.chunk.id = r.chunk.id := by simpa using hid
      have h2 : e.chunk.id = x := by simpa using hx
      simp [← h1, h2]
    · exact ⟨e, List.mem_map.mpr ⟨e, he, by rw [if_neg hid]⟩, hx⟩
  · exact List.any_eq_true.mpr ⟨e, List.mem_append_left _ he, hx⟩

theorem hasId_upsert_self (col : Collection) (r : EmbeddingRecord) :
    hasId (upsert col r) r.chunk.id = true := by
  unfold upsert
  split
  · next hpre =>
      rcases List.any_eq_true.mp hpre with ⟨e, he, hid⟩
      apply List.any_eq_true.mpr
      exact ⟨r, List.mem_map.mpr ⟨e, he, by rw [if_pos hid]⟩, by simp⟩
  · exact List.any_eq_true.mpr ⟨r, List.mem_append_right _ (by simp), by simp⟩

theorem length_upsert_of_hasId {col : Collection} {r : EmbeddingRecord}
    (h : hasId col r.chunk.id = true) :
    (upsert col r).length = col.length := by
  unfold upsert
  rw [if_pos h, List.length_map]

theorem hasId_addChunks_of (embed : String → List Int) {x : String} :
    ∀ (cs : List Chunk) (col : Collection), hasId col x = true →
      hasId (addChunks embed col cs) x = true := by
  intro cs
  induction cs with
  | nil => intro col h; exact h
  | cons c t ih =>
      intro col h
      rw [addChunks_cons]
      exact ih _ (hasId_upsert_of h)

theorem hasId_addChunks_self (embed : String → List Int) :
    ∀ (cs : List Chunk) (col : Collection) (c : Chunk), c ∈ cs →
      hasId (addChunks embed col cs) c.id = true := by
  intro cs
  induction cs with
  | nil => intro col c hc; cases hc
  | cons a t ih =>
      intro col c hc
      rw [addChunks_cons]
      rcases List.mem_cons.mp hc with rfl | hmem
      · exact hasId_addChunks_of embed t _
          (by simpa using hasId_upsert_self col ⟨c, embed c.text⟩)
      · exact ih _ c hmem

theorem length_addChunks_of_present (embed : String → List Int) :
    ∀ (cs : List Chunk) (col : Collection),
      (∀ c ∈ cs, hasId col c.id = true) →
      (addChunks embed col cs).length = col.length := by
  intro cs
  induction cs with
  | nil => intro col _; rfl
  | cons a t ih =>
      intro col hall
      rw [addChunks_cons]
      have ha : hasId col a.id = true := hall a (by simp)
      have hl : (upsert col ⟨a, embed a.text⟩).length = col.length :=
        length_upsert_of_hasId ha
      rw [ih _ (fun c hc => hasId_upsert_of (hall c (by simp [hc]))), hl]

/-- C5: re-ingesting identical content into the same collection leaves
the stored record count unchanged — chunk ids are a deterministic
function of the chunk content (`chunkId`/`mkChunk`), and `addChunks`
upserts by id, so the second run replaces rather than duplicates. -/
theorem c5_reingest_preserves_count (embed : String → List Int)
    (col : Collection) (cs : List Chunk) :
    (addChunks embed (addChunks embed col cs) cs).length
      = (addChunks embed col cs).length ∧
    ∀ t u : String, ∀ ti : Option String, (mkChunk t u ti).id = chunkId t :=
  ⟨length_addChunks_of_present embed cs (addChunks embed col cs)
    (fun c hc => hasId_addChunks_self embed cs col c hc),
   fun _ _ _ => rfl⟩

theorem mem_insertRetr (x z : Retrieved) : ∀ l : List Retrieved,
    z ∈ insertRetr x l ↔ z = x ∨ z ∈ l := by
  intro l
  induction l with
  | nil => simp [insertRetr]
  | cons y ys ih =>
      unfold insertRetr
      split
      · rw [List.mem_cons, ih, List.mem_cons]
        tauto
      · rw [List.mem_cons, List.mem_cons]

theorem pairwise_insertRetr (x : Retrieved) {l : List Retrieved}
    (hp : l.Pairwise (fun a b => a.distance ≤ b.distance)) :
    (insertRetr x l).Pairwise (fun a b => a.distance ≤ b.distance) := by
  induction l with
  | nil => simp [insertRetr]
  | cons y ys ih =>
      rcases List.pairwise_cons.mp hp with ⟨hy, hys⟩
      unfold insertRetr
      split
      · next hle =>
          refine List.pairwise_cons.mpr ⟨?_, ih hys⟩
          intro z hz
          rcases (mem_insertRetr x z ys).mp hz with rfl | h2
          · exact hle
          · exact hy z h2
      · next hgt =>
          refine List.pairwise_cons.mpr ⟨?_, hp⟩
          intro z hz
          rcases List.mem_cons.mp hz with rfl | h2
          · omega
          · exact le_trans (by omega) (hy z h2)

theorem pairwise_sortRetr : ∀ l : List Retrieved,
    (sortRetr l).Pairwise (fun a b => a.distance ≤ b.distance) := by
  intro l
  induction l with
  | nil => simp [sortRetr]
  | cons x xs ih => exact pairwise_insertRetr x ih

theorem mem_sortRetr (z : Retrieved) : ∀ l : List Retrieved,
    z ∈ sortRetr l ↔ z ∈ l := by
  intro l
  induction l with
  | nil => simp [sortRetr]
  | cons x xs ih =>
      unfold sortRetr
      rw [mem_insertRetr, ih, List.mem_cons]

/-- C6: the retrieval result is sorted ascending by distance (lower =
more similar), its length never exceeds the requested `n_results`, and a
stored chunk that strictly best matches the query appears in the result
with the smallest distance among all returned results. -/
theorem c6_query_ranking (embed : String → List Int)
    (dist : List Int → List Int → Nat) (col : Collection)
    (q : String) (n : Nat) (rec : EmbeddingRecord)
    (hn : 1 ≤ n) (hrec : rec ∈ col)
    (hmin : ∀ r ∈ col, r ≠ rec →
      dist (embed q) rec.vector < dist (embed q) r.vector) :
    (queryCollection embed dist col q n).Pairwise
        (fun a b => a.distance ≤ b.distance)
    ∧ (queryCollection embed dist col q n).length ≤ n
    ∧ (⟨rec.chunk, dist (embed q) rec.vector⟩ : Retrieved)
        ∈ queryCollection embed dist col q n
    ∧ ∀ x ∈ queryCollection embed dist col q n,
        dist (embed q) rec.vector ≤ x.distance := by
  have hpair :
      (queryCollection embed dist col q n).Pairwise
        (fun a b : Retrieved => a.distance ≤ b.distance) :=
    (pairwise_sortRetr _).sublist (List.take_sublist _ _)
  have hlen : (queryCollection embed dist col q n).length ≤ n := by
    unfold queryCollection
    rw [List.length_take]
    exact Nat.min_le_left _ _
  have hfrec :
      (⟨rec.chunk, dist (embed q) rec.vector⟩ : Retrieved)
        ∈ sortRetr (col.map
            (fun r => ⟨r.chunk, dist (embed q) r.vector⟩)) := by
    rw [mem_sortRetr]
    exact List.mem_map.mpr ⟨rec, hrec, rfl⟩
  cases hs : sortRetr (col.map
      (fun r => ⟨r.chunk, dist (embed q) r.vector⟩)) with
  | nil => rw [hs] at hfrec; cases hfrec
  | cons hd tl =>
      have hpairs := pairwise_sortRetr
        (col.map (fun r => ⟨r.chunk, dist (embed q) r.vector⟩))
      rw [hs] at hpairs
      rcases List.pairwise_cons.mp hpairs with ⟨hhd, _⟩
      have hhd_all : ∀ z, z ∈ hd :: tl → hd.distance ≤ z.distance := by
        intro z hz
        rcases List.mem_cons.mp hz with rfl | h2
        · exact le_refl _
        · exact hhd z h2
      have hhd_mem : hd ∈ col.map
          (fun r => ⟨r.chunk, dist (embed q) r.vector⟩) := by
        rw [← mem_sortRetr, hs]
        simp
      rcases List.mem_map.mp hhd_mem with ⟨r', hr', hfr'⟩
      have hd_eq : hd = ⟨rec.chunk, dist (embed q) rec.vector⟩ := by
        by_cases hcase : r' = rec
        · rw [← hfr', hcase]
        · have h1 : dist (embed q) rec.vector < dist (embed q) r'.vector :=
            hmin r' hr' hcase
          have h2 : hd.distance ≤ dist (embed q) rec.vector := by
            have := hhd_all _ (hs ▸ hfrec)
            simpa using this
          have h3 : hd.distance = dist (embed q) r'.vector := by
            rw [← hfr']
          omega
      have hres : queryCollection embed dist col q n
          = (hd :: tl).take n := by
        unfold queryCollection
        rw [hs]
      cases n with
      | zero => exact absurd hn (by omega)
      | succ m =>
      constructor
      · exact hpair
      constructor
      · exact hlen
      constructor
      · rw [hres, List.take_succ_cons, ← hd_eq]
        simp
      · intro x hx
        have hx2 : x ∈ hd :: tl := List.take_subset _ _ (hres ▸ hx)
        have := hhd_all x hx2
        rw [hd_eq] at this
        simpa using this

/-- Witness for C6: a two-record collection where the install chunk is
the strict best match for the query `"install"`. -/
theorem c6_query_ranking_witness :
    ((1:Nat) ≤ 5 ∧ recInstall ∈ [recInstall, recSystem]
      ∧ ∀ r ∈ [recInstall, recSystem], r ≠ recInstall →
          distStub (embedStub "install") recInstall.vector
            < distStub (embedStub "install") r.vector)
    ∧ (queryCollection embedStub distStub [recInstall, recSystem]
        "install" 5).Pairwise (fun a b => a.distance ≤ b.distance)
    ∧ (⟨recInstall.chunk,
        distStub (embedStub "install") recInstall.vector⟩ : Retrieved)
        ∈ queryCollection embedStub distStub [recInstall, recSystem]
            "install" 5
    ∧ ∀ x ∈ queryCollection embedStub distStub [recInstall, recSystem]
        "install" 5,
        distStub (embedStub "install") recInstall.vector ≤ x.distance :=
  ⟨⟨by omega, by simp, by decide⟩,
   (c6_query_ranking embedStub distStub [recInstall, recSystem] "install" 5
      recInstall (by omega) (by simp) (by decide)).1,
   (c6_query_ranking embedStub distStub [recInstall, recSystem] "install" 5
      recInstall (by omega) (by simp) (by decide)).2.2.1,
   (c6_query_ranking embedStub distStub [recInstall, recSystem] "install" 5
      recInstall (by omega) (by simp) (by decide)).2.2.2⟩

theorem chunkSize_append (a b : List String) :
    chunkSize (a ++ b) = chunkSize a + chunkSize b := by
  simp [chunkSize]

theorem chunkGo_bodies (b k : Nat) : ∀ (rest seed body : List String),
    ((chunkGo b k seed body rest).map SentChunk.body).flatten = body ++ rest := by
  intro rest
  induction rest with
  | nil => intro seed body; simp [chunkGo]
  | cons s rest ih =>
      intro seed body
      simp only [chunkGo]
      split
      · rw [ih]
        simp
      · simp only [List.map_cons, List.flatten_cons]
        rw [ih]
        simp

theorem chunkGo_sizes (b k : Nat) : ∀ (rest seed body : List String),
    ChunkOk b ⟨seed, body⟩ → ∀ c ∈ chunkGo b k seed body rest, ChunkOk b c := by
  intro rest
  induction rest with
  | nil =>
      intro seed body h c hc
      simp only [chunkGo, List.mem_singleton] at hc
      rw [hc]
      exact h
  | cons s rest ih =>
      intro seed body h c hc
      simp only [chunkGo] at hc
      by_cases hfit : chunkSize seed + chunkSize body + s.length ≤ b
      · rw [if_pos hfit] at hc
        refine ih seed (body ++ [s]) (Or.inl ?_) c hc
        simp only [SentChunk.sentences]
        rw [← List.append_assoc, chunkSize_append, chunkSize_append]
        simpa [chunkSize] using hfit
      · rw [if_neg hfit] at hc
        rcases List.mem_cons.mp hc with rfl | h2
        · exact h
        · by_cases hov :
            chunkSize (((seed ++ body).reverse.take k).reverse) + s.length ≤ b
          · rw [if_pos hov] at h2
            refine ih _ [s] (Or.inl ?_) c h2
            simp only [SentChunk.sentences]
            rw [chunkSize_append]
            simpa [chunkSize] using hov
          · rw [if_neg hov] at h2
            by_cases hs : s.length ≤ b
            · refine ih [] [s] (Or.inl ?_) c h2
              simp [SentChunk.sentences, chunkSize, hs]
            · refine ih [] [s] (Or.inr ⟨rfl, s, rfl, by omega⟩) c h2

/-- C4: for every sentence sequence of a clean text and every valid
`(maxChars, overlapSentences)` pair, (a) concatenating the chunks with
their overlap seeds removed reconstructs the original sentence
sequence, and (b) no produced chunk's character count exceeds the
budget except a chunk that is a single sentence longer than the
budget. -/
theorem c4_chunking_lossless_and_bounded (b k : Nat) (sents : List String)
    (hb1 : 100 ≤ b) (hb2 : b ≤ 10000) (hk : k ≤ 10) :
    ((chunkSentences b k sents).map SentChunk.body).flatten = sents
    ∧ ∀ c ∈ chunkSentences b k sents,
        chunkSize c.sentences ≤ b
        ∨ (c.seed = [] ∧ ∃ s, c.body = [s] ∧ b < s.length) := by
  cases sents with
  | nil =>
      refine ⟨rfl, ?_⟩
      intro c hc
      simp [chunkSentences] at hc
  | cons s rest =>
      constructor
      · show ((chunkGo b k [] [s] rest).map SentChunk.body).flatten = s :: rest
        rw [chunkGo_bodies]
        simp
      · intro c hc
        have h0 : ChunkOk b ⟨[], [s]⟩ := by
          by_cases hs : s.length ≤ b
          · exact Or.inl (by simpa [SentChunk.sentences, chunkSize] using hs)
          · exact Or.inr ⟨rfl, s, rfl, by omega⟩
        exact chunkGo_sizes b k rest [] [s] h0 c hc

/-- Witness for C4 at the default budget and overlap. -/
theorem c4_chunking_lossless_and_bounded_witness :
    ((100:Nat) ≤ 1800 ∧ (1800:Nat) ≤ 10000 ∧ (2:Nat) ≤ 10)
    ∧ ((chunkSentences 1800 2 ["First sentence.", "Second one."]).map
        SentChunk.body).flatten = ["First sentence.", "Second one."]
    ∧ ∀ c ∈ chunkSentences 1800 2 ["First sentence.", "Second one."],
        chunkSize c.sentences ≤ 1800
        ∨ (c.seed = [] ∧ ∃ s, c.body = [s] ∧ 1800 < s.length) :=
  ⟨⟨by omega, by omega, by omega⟩,
   (c4_chunking_lossless_and_bounded 1800 2 ["First sentence.", "Second one."]
      (by omega) (by omega) (by omega)).1,
   (c4_chunking_lossless_and_bounded 1800 2 ["First sentence.", "Second one."]
      (by omega) (by omega) (by omega)).2⟩

/-- C8: every record emitted by `processPages` has non-empty
`cleanedText` and originates from a crawled page with `status = ok`
whose extraction is non-empty; in particular no record is emitted for a
failed page or for a page whose extracted text is empty after cleanup. -/
theorem c8_processPages_emits_only_content (ps : List CrawledPage)
    (d : ExtractedDocument) (hd : d ∈ processPages ps) :
    ¬ d.cleanedText = ""
    ∧ ∃ p ∈ ps, p.status = PageStatus.ok
        ∧ ∃ h, p.html = some h ∧ d = ⟨p.url, p.title, extract h⟩ := by
  induction ps with
  | nil => simp [processPages] at hd
  | cons p ps ih =>
      cases hst : p.status with
      | failed =>
          simp only [processPages, hst] at hd
          rcases ih hd with ⟨hne, p', hp', rest⟩
          exact ⟨hne, p', List.mem_cons_of_mem _ hp', rest⟩
      | ok =>
          cases hh : p.html with
          | none =>
              simp only [processPages, hst, hh] at hd
              rcases ih hd with ⟨hne, p', hp', rest⟩
              exact ⟨hne, p', List.mem_cons_of_mem _ hp', rest⟩
          | some h =>
              simp only [processPages, hst, hh] at hd
              by_cases ht : extract h = ""
              · rw [if_pos ht] at hd
                rcases ih hd with ⟨hne, p', hp', rest⟩
                exact ⟨hne, p', List.mem_cons_of_mem _ hp', rest⟩
              · rw [if_neg ht] at hd
                rcases List.mem_cons.mp hd with rfl | h2
                · exact ⟨ht, p, List.mem_cons_self _ _, hst, h, hh, rfl⟩
                · rcases ih h2 with ⟨hne, p', hp', rest⟩
                  exact ⟨hne, p', List.mem_cons_of_mem _ hp', rest⟩

/-- Witness for C8 on a batch containing a content page, a failed page
and a page with no visible text. -/
theorem c8_processPages_emits_only_content_witness :
    (⟨"https://ex.com/a", some "A", "Title\nContent here"⟩ : ExtractedDocument)
      ∈ processPages [pageContent, pageFailed, pageNoText]
    ∧ (¬ (⟨"https://ex.com/a", some "A",
          "Title\nContent here"⟩ : ExtractedDocument).cleanedText = ""
      ∧ ∃ p ∈ [pageContent, pageFailed, pageNoText],
          p.status = PageStatus.ok
          ∧ ∃ h, p.html = some h
            ∧ (⟨"https://ex.com/a", some "A",
                "Title\nContent here"⟩ : ExtractedDocument)
              = ⟨p.url, p.title, extract h⟩) :=
  ⟨by decide,
   c8_processPages_emits_only_content [pageContent, pageFailed, pageNoText]
     ⟨"https://ex.com/a", some "A", "Title\nContent here"⟩ (by decide)⟩

theorem leadsWith_nilNeedle (l : List Char) : leadsWith [] l = true := by
  cases l <;> rfl

theorem occursInL_nilNeedle (l : List Char) : occursInL [] l = true := by
  induction l with
  | nil => rfl
  | cons b bs ih => simp [occursInL, leadsWith]

theorem occursInL_of_leadsWith {n l : List Char}
    (h : leadsWith n l = true) : occursInL n l = true := by
  cases l with
  | nil => exact h
  | cons b bs => simp [occursInL, h]

theorem occursInL_cons_of {n : List Char} {x : Char} {t : List Char}
    (h : occursInL n t = true) : occursInL n (x :: t) = true := by
  simp [occursInL, h]

theorem leadsWith_through {n : List Char} {c : Char} (hc : ¬ c ∈ n) :
    ∀ u v, leadsWith n (u ++ c :: v) = true → leadsWith n u = true := by
  induction n with
  | nil => intro u v _; exact leadsWith_nilNeedle u
  | cons d n' ih =>
      intro u v h
      cases u with
      | nil =>
          exfalso
          simp only [List.nil_append, leadsWith, Bool.and_eq_true,
            beq_iff_eq] at h
          obtain ⟨h1, _⟩ := h
          subst h1
          exact hc (List.mem_cons_self _ _)
      | cons e u' =>
          simp only [List.cons_append, leadsWith, Bool.and_eq_true,
            beq_iff_eq] at h ⊢
          exact ⟨h.1,
            ih (fun hm => hc (List.mem_cons_of_mem _ hm)) u' v h.2⟩

theorem occursInL_through {n : List Char} {c : Char} (hc : ¬ c ∈ n) :
    ∀ u v, occursInL n (u ++ c :: v) = true →
      occursInL n u = true ∨ occursInL n v = true := by
  intro u
  induction u with
  | nil =>
      intro v h
      simp only [List.nil_append, occursInL, Bool.or_eq_true] at h
      cases h with
      | inl hl =>
          cases n with
          | nil => exact Or.inl (occursInL_nilNeedle [])
          | cons d n' =>
              exfalso
              simp only [leadsWith, Bool.and_eq_true, beq_iff_eq] at hl
              obtain ⟨h1, _⟩ := hl
              subst h1
              exact hc (List.mem_cons_self _ _)
      | inr hr => exact Or.inr hr
  | cons x u' ih =>
      intro v h
      simp only [List.cons_append, occursInL, Bool.or_eq_true] at h
      cases h with
      | inl hl =>
          exact Or.inl (occursInL_of_leadsWith
            (leadsWith_through hc (x :: u') v hl))
      | inr hr =>
          cases ih v hr with
          | inl h1 => exact Or.inl (occursInL_cons_of h1)
          | inr h2 => exact Or.inr h2

theorem occursInL_joinSep {n : List Char} {c : Char}
    (hn : ¬ n = []) (hc : ¬ c ∈ n) :
    ∀ ls : List (List Char), occursInL n (joinSep c ls) = true →
      ∃ x ∈ ls, occursInL n x = true := by
  intro ls
  induction ls with
  | nil =>
      intro h
      exfalso
      cases n with
      | nil => exact hn rfl
      | cons d n' => simp [joinSep, occursInL, leadsWith] at h
  | cons x t ih =>
      cases t with
      | nil =>
          intro h
          exact ⟨x, by simp, by simpa [joinSep] using h⟩
      | cons y t' =>
          intro h
          have h2 : occursInL n (x ++ c :: joinSep c (y :: t')) = true := by
            simpa [joinSep] using h
          rcases occursInL_through hc x (joinSep c (y :: t')) h2 with h3 | h4
          · exact ⟨x, by simp, h3⟩
          · rcases ih h4 with ⟨z, hz, ho⟩
            exact ⟨z, List.mem_cons_of_mem _ hz, ho⟩

mutual

theorem content_taggedTexts : ∀ (b : Bool) (doc : Html),
    ((taggedTexts b doc).filter (fun p => !p.1)).map Prod.snd
      = if b then [] else textItems doc
  | b, .text s => by
      cases b <;> by_cases hs : strTrim s = "" <;>
        simp [taggedTexts, textItems, hs]
  | b, .comment s => by
      cases b <;> simp [taggedTexts, textItems]
  | b, .elem tg cl idA rl cs => by
      have hf := content_taggedTextsF (b || isNoise tg cl idA rl) cs
      cases b with
      | true =>
          simp only [Bool.true_or, if_pos] at hf
          simpa [taggedTexts] using hf
      | false =>
          simp only [Bool.false_or] at hf
          cases hn : isNoise tg cl idA rl with
          | true =>
              rw [hn] at hf
              simp only [if_pos] at hf
              simp [taggedTexts, textItems, hn, hf]
          | false =>
              rw [hn] at hf
              simp only [Bool.false_eq_true, if_neg] at hf
              simp [taggedTexts, textItems, hn, hf]

theorem content_taggedTextsF : ∀ (b : Bool) (hs : List Html),
    ((taggedTextsF b hs).filter (fun p => !p.1)).map Prod.snd
      = if b then [] else textItemsF hs
  | b, [] => by cases b <;> simp [taggedTextsF, textItemsF]
  | b, h :: t => by
      have h1 := content_taggedTexts b h
      have h2 := content_taggedTextsF b t
      cases b <;>
        simp_all [taggedTextsF, textItemsF, List.filter_append,
          List.map_append]

end

theorem contentTexts_eq_textItems (doc : Html) :
    contentTexts doc = textItems doc := by
  have h := content_taggedTexts false doc
  simpa [contentTexts] using h

/-- C7: every non-empty, newline-free substring of the extractor's
output occurs inside a text node lying outside every denylisted noise
subtree of the input document — so the output contains no content that
appears only inside a denylisted element's subtree (the inserted `'\n'`
separators are the extractor's own, not input content). -/
theorem c7_extract_omits_noise (doc : Html) (s : String)
    (hs : ¬ s.toList = []) (hnl : ¬ '\n' ∈ s.toList)
    (hocc : occursIn s (extract doc) = true) :
    ∃ t ∈ contentTexts doc, occursIn s t = true := by
  have h1 : occursInL s.toList
      (joinSep '\n' ((textItems doc).map String.toList)) = true := hocc
  rcases occursInL_joinSep hs hnl _ h1 with ⟨x, hx, ho⟩
  rcases List.mem_map.mp hx with ⟨t, ht, rfl⟩
  refine ⟨t, ?_, ho⟩
  rw [contentTexts_eq_textItems]
  exact ht

/-- Witness for C7 on a document with a navigation element beside real
content. -/
theorem c7_extract_omits_noise_witness :
    (¬ "Content".toList = [] ∧ ¬ '\n' ∈ "Content".toList
      ∧ occursIn "Content" (extract docSample) = true)
    ∧ ∃ t ∈ contentTexts docSample, occursIn "Content" t = true :=
  ⟨⟨by decide, by decide, by decide⟩,
   c7_extract_omits_noise docSample "Content"
     (by decide) (by decide) (by decide)⟩

end QaRag
